import Mathlib

/- Verification development for scripts/perf/summarize_and_compare.py.

   Modelling conventions for the shallow embedding:
   - Python floats are modelled as exact rationals.  A value that can be the
     float NaN is modelled as an Option, with none standing for NaN; the
     script only ever tests NaN-ness with math.isnan and never does
     arithmetic on a NaN, so this is faithful on every path the script takes.
   - CSV plumbing (file handles, DictReader) is peripheral; a row is modelled
     as the field lookups the script performs on it, each an Option String
     (none when the key is missing from the header or the row).
   - The Batteries rational operations are restored to their default
     reducibility so that concrete runs of the embedded functions can be
     checked by the kernel. -/

attribute [local semireducible] Rat.mul Rat.inv Rat.add Rat.sub

/-- Threshold constants of the script (lines 26-28): percent increase of the
    current p95 latency over the moving-average baseline. -/
def WARN_PCT : ℚ := 5

/-- Alert threshold (line 27). -/
def ALERT_PCT : ℚ := 10

/-- Block threshold (line 28). -/
def BLOCK_PCT : ℚ := 20

/-- Embedding of percentile (lines 31-42): linearly interpolated order
    statistic.  The Python int conversion of the fractional rank is its floor
    for the nonnegative ranks that arise for p between 0 and 100; list
    indexing is modelled with getD, whose default is never reached for p in
    that range. -/
def percentile (values : List ℚ) (p : ℚ) : Option ℚ :=
  if values = [] then none
  else
    let v := List.insertionSort (fun a b => a ≤ b) values
    let k : ℚ := ((values.length : ℚ) - 1) * (p / 100)
    let f : ℤ := ⌊k⌋
    let c : ℤ := ⌈k⌉
    if f = c then some (v.getD f.toNat 0)
    else some (v.getD f.toNat 0 * ((c : ℚ) - k) + v.getD c.toNat 0 * (k - (f : ℚ)))

/-- One sample record as built on line 61 of read_jmeter_csv. -/
structure Sample where
  elapsed : ℚ
  success : Bool
  label : String
  deriving DecidableEq

/-- One raw CSV row as the script reads it: the six dictionary lookups it
    performs, each none when the key is absent.  The Cap fields are the
    capitalized header variants Elapsed, Success, Label. -/
structure Row where
  elapsed : Option String
  elapsedCap : Option String
  success : Option String
  successCap : Option String
  label : Option String
  labelCap : Option String
  deriving DecidableEq

/-- Python or over optional strings: a missing key (none) and the empty
    string are falsy and fall through to the right operand. -/
def pyOrS (a b : Option String) : Option String :=
  match a with
  | some s => if s = "" then b else some s
  | none => b

/-- Decimal digit test for the model of float conversion. -/
def isDig (c : Char) : Bool := decide ('0' ≤ c) && decide (c ≤ '9')

/-- Numeric value of a decimal digit character. -/
def digVal (c : Char) : ℕ := c.toNat - '0'.toNat

/-- Value of a digit string read left to right. -/
def natOfDigits (l : List Char) : ℕ := l.foldl (fun a c => a * 10 + digVal c) 0

/-- Unsigned part of the float conversion model: an integer part, optionally
    followed by a point and a fractional part, at least one digit in all. -/
def parseDec (cs : List Char) : Option ℚ :=
  let ip := cs.takeWhile isDig
  let r1 := cs.dropWhile isDig
  match r1 with
  | [] => if ip.isEmpty then none else some (natOfDigits ip)
  | '.' :: fr =>
    let fp := fr.takeWhile isDig
    let r2 := fr.dropWhile isDig
    if r2.isEmpty && (!ip.isEmpty || !fp.isEmpty) then
      some ((natOfDigits ip : ℚ) + (natOfDigits fp : ℚ) / (10 : ℚ) ^ fp.length)
    else none
  | _ => none

/-- Model of the Python float(str) conversion applied to the elapsed cell on
    line 57, restricted to the finite-decimal fragment (optional sign,
    digits, optional fractional digits).  none models the ValueError that
    makes line 62 skip the record. -/
def parseFloat (s : String) : Option ℚ :=
  match s.data with
  | '-' :: t => (parseDec t).map (fun q => -q)
  | '+' :: t => parseDec t
  | cs => parseDec cs

/-- Effective elapsed cell of a row (line 57): the lowercase key, else the
    capitalized key; none models falling through to the literal 0. -/
def effElapsed (r : Row) : Option String :=
  pyOrS r.elapsed (pyOrS r.elapsedCap none)

/-- Effective success cell of a row (line 58), with its false default. -/
def rowSuccessStr (r : Row) : String :=
  (pyOrS r.success (pyOrS r.successCap (some "false"))).getD "false"

/-- ASCII lowercasing of one character, the fragment of the Python lower
    method relevant to the success cell comparison. -/
def lowerChar (c : Char) : Char :=
  if 'A' ≤ c ∧ c ≤ 'Z' then Char.ofNat (c.toNat + 32) else c

/-- ASCII lowercasing of a string. -/
def lowerStr (s : String) : String := ⟨s.data.map lowerChar⟩

/-- Success flag of a row (line 59): case-insensitive comparison of the
    effective success cell with the string true. -/
def rowSuccess (r : Row) : Bool :=
  lowerStr (rowSuccessStr r) == "true"

/-- Label of a row (line 60), with its unknown default. -/
def rowLabel (r : Row) : String :=
  (pyOrS r.label (pyOrS r.labelCap (some "unknown"))).getD "unknown"

/-- Lines 56-63: one row becomes one sample, or none when the float
    conversion of its elapsed cell fails and the row is skipped. -/
def parseRow (r : Row) : Option Sample :=
  match effElapsed r with
  | none => some ⟨0, rowSuccess r, rowLabel r⟩
  | some s => (parseFloat s).map (fun e => ⟨e, rowSuccess r, rowLabel r⟩)

/-- Per-row logic of read_jmeter_csv (lines 45-64): every row yields its
    sample, skipped rows are dropped. -/
def read_jmeter_csv (rows : List Row) : List Sample :=
  rows.filterMap parseRow

/-- The scenario aggregate record of aggregate_samples (lines 67-81); none
    models the NaN placed in avg_ms and p95_ms for an empty sample list. -/
structure Agg where
  count : ℕ
  avg_ms : Option ℚ
  p95_ms : Option ℚ
  throughput : ℚ
  errors : ℕ
  success : ℕ
  err_rate : ℚ
  deriving DecidableEq

/-- Embedding of aggregate_samples (lines 67-81). -/
def aggregate_samples (samples : List Sample) : Agg :=
  if samples = [] then ⟨0, none, none, 0, 0, 0, 0⟩
  else
    let el := samples.map (fun s => s.elapsed)
    let count := el.length
    let avg_ms := el.sum / (count : ℚ)
    let p95_ms := percentile el 95
    let errors := samples.countP (fun s => !s.success)
    let success := count - errors
    let total_elapsed_sec := el.sum / 1000
    let throughput := if 0 < total_elapsed_sec then (count : ℚ) / total_elapsed_sec else 0
    let err_rate := if 0 < count then (errors : ℚ) / (count : ℚ) * 100 else 0
    ⟨count, some avg_ms, p95_ms, throughput, errors, success, err_rate⟩

/-- One history.csv record after read_history (lines 84-104).  The numeric
    fields are Option: none models a stored NaN. -/
structure HistoryRecord where
  timestamp : String
  run : String
  commit : String
  branch : String
  scenario : String
  avg_ms : Option ℚ
  p95_ms : Option ℚ
  throughput : Option ℚ
  err_rate : Option ℚ
  deriving DecidableEq

/-- Embedding of moving_average (lines 107-111): mean of the last window
    entries, in stored order; none (NaN) on an empty list. -/
def moving_average (values : List ℚ) (window : ℕ) : Option ℚ :=
  if values = [] then none
  else
    let tk := if window < values.length then values.drop (values.length - window) else values
    some (tk.sum / (tk.length : ℚ))

/-- Validity filter of line 187: the record is for the named scenario and
    its p95 is neither NaN nor nonpositive. -/
def validFor (name : String) (h : HistoryRecord) : Bool :=
  h.scenario == name &&
    (match h.p95_ms with
     | some v => decide (0 < v)
     | none => false)

/-- Lines 187-188 of main: the baseline p95 for one scenario.  The filter
    guarantees p95_ms is present, so getD only names the guaranteed value. -/
def scenario_baseline (history : List HistoryRecord) (name : String) : Option ℚ :=
  moving_average ((history.filter (validFor name)).map (fun h => h.p95_ms.getD 0)) 10

/-- Modelled from the wording of the spec, for comparison with
    scenario_baseline: the arithmetic mean of the p95 values of the last at
    most 10 matching valid records taken in stored append order, NaN (none)
    when no valid record exists. -/
def baseline_spec (history : List HistoryRecord) (name : String) : Option ℚ :=
  let vals := (history.filter (validFor name)).map (fun h => h.p95_ms.getD 0)
  if vals = [] then none
  else
    let lastTen := vals.drop (vals.length - 10)
    some (lastTen.sum / (lastTen.length : ℚ))

/-- Fifteen history records for scenario s with p95 values 1 to 15, the
    window example of the spec. -/
def exHistory : List HistoryRecord :=
  (List.range 15).map (fun i => ⟨"", "", "", "", "s", none, some ((i : ℚ) + 1), none, none⟩)

/-- The classification triple of lines 190-213: delta versus baseline (none
    models NaN), severity level string, and note string. -/
structure Classification where
  delta_pct : Option ℚ
  level : String
  note : String
  deriving DecidableEq

/-- Embedding of the per-scenario classifier, lines 190-213 of main.  The
    guard of line 194 is the two matches being some plus the baseline being
    positive. -/
def classify (avg_p95 cur_p95 : Option ℚ) : Classification :=
  match avg_p95, cur_p95 with
  | some b, some c =>
    if 0 < b then
      let d := (c - b) / b * 100
      if BLOCK_PCT < d then ⟨some d, "red", "BLOCK (>20%)"⟩
      else if ALERT_PCT < d then ⟨some d, "red", "RED (>10%)"⟩
      else if WARN_PCT < d then ⟨some d, "yellow", "YELLOW (>5%)"⟩
      else ⟨some d, "green", "OK"⟩
    else ⟨none, "green", "no baseline"⟩
  | _, _ => ⟨none, "green", "no baseline"⟩

/-- The given pattern occurs at the front of the text. -/
def matchesAt : List Char → List Char → Bool
  | [], _ => true
  | _ :: _, [] => false
  | a :: pa, b :: tb => a == b && matchesAt pa tb

/-- The given pattern occurs somewhere in the text. -/
def occursIn (pat : List Char) : List Char → Bool
  | [] => pat.isEmpty
  | b :: tb => matchesAt pat (b :: tb) || occursIn pat tb

/-- Python substring membership test, pat in s. -/
def pyIn (pat s : String) : Bool := occursIn pat.data s.data

/-- Line 282 of main: block only when some scenario is at level red with a
    BLOCK note. -/
def should_block (cls : List Classification) : Bool :=
  cls.any (fun v => v.level == "red" && pyIn "BLOCK" v.note)

/-- Line 283 of main: the process exit code, 2 when blocking, else 0. -/
def exit_code (cls : List Classification) : ℕ :=
  if should_block cls then 2 else 0

/-- On every output of the classifier, the gating predicate of line 282
    (level red and BLOCK a substring of the note) holds exactly when the
    note is the BLOCK variant. -/
theorem classify_block_pred (a c : Option ℚ) :
    (((classify a c).level == "red") && pyIn "BLOCK" (classify a c).note)
      = ((classify a c).note == "BLOCK (>20%)") := by
  rcases a with _ | b <;> rcases c with _ | cv <;> try rfl
  by_cases h0 : 0 < b
  · simp only [classify, if_pos h0]
    split_ifs <;> rfl
  · simp only [classify, if_neg h0]
    rfl

/-- Claim C1: the run blocks (nonzero exit code) iff at least one scenario
    classifies to the BLOCK note; a RED or YELLOW classification never
    blocks by itself, and the exit code is always 0 or 2. -/
theorem gating_blocks_iff_block_note (inputs : List (Option ℚ × Option ℚ)) :
    (exit_code (inputs.map (fun q => classify q.1 q.2)) ≠ 0 ↔
      ∃ q ∈ inputs, (classify q.1 q.2).note = "BLOCK (>20%)") ∧
    (exit_code (inputs.map (fun q => classify q.1 q.2)) = 0 ∨
      exit_code (inputs.map (fun q => classify q.1 q.2)) = 2) := by
  have hsb : should_block (inputs.map (fun q => classify q.1 q.2)) = true ↔
      ∃ q ∈ inputs, (classify q.1 q.2).note = "BLOCK (>20%)" := by
    simp only [should_block, List.any_eq_true, List.mem_map,
      exists_exists_and_eq_and, classify_block_pred, beq_iff_eq]
  constructor
  · unfold exit_code
    by_cases h : should_block (inputs.map (fun q => classify q.1 q.2)) <;>
      simp [h] at hsb ⊢ <;> exact hsb
  · unfold exit_code
    by_cases h : should_block (inputs.map (fun q => classify q.1 q.2)) <;> simp [h]

/-- Claim C3: with a NaN or nonpositive baseline, or a NaN current p95, the
    classifier yields level green, note no baseline, undefined delta, and
    such a scenario never triggers the gating block. -/
theorem classify_no_baseline (b c : Option ℚ)
    (h : b = none ∨ (∃ v, b = some v ∧ v ≤ 0) ∨ c = none) :
    classify b c = ⟨none, "green", "no baseline"⟩ ∧
    should_block [classify b c] = false := by
  have hcl : classify b c = ⟨none, "green", "no baseline"⟩ := by
    rcases h with rfl | ⟨v, rfl, hv⟩ | rfl
    · rcases c with _ | cv <;> rfl
    · rcases c with _ | cv
      · rfl
      · simp only [classify]
        rw [if_neg (not_lt.mpr hv)]
    · rcases b with _ | bv <;> rfl
  refine ⟨hcl, ?_⟩
  rw [should_block, List.any_cons, List.any_nil, hcl]
  rfl

/-- Witness for classify_no_baseline at a missing baseline. -/
theorem classify_no_baseline_witness :
    ((none : Option ℚ) = none ∨ (∃ v, (none : Option ℚ) = some v ∧ v ≤ 0) ∨
      (some (5 : ℚ)) = none) ∧
    classify none (some 5) = ⟨none, "green", "no baseline"⟩ ∧
    should_block [classify none (some 5)] = false :=
  ⟨Or.inl rfl, (classify_no_baseline none (some 5) (Or.inl rfl)).1,
    (classify_no_baseline none (some 5) (Or.inl rfl)).2⟩

/-- Claim C4: the baseline of a scenario is the arithmetic mean of the last
    at most 10 valid matching p95 values in stored order (NaN when none),
    and on 15 records with p95 values 1 to 15 it is 10.5. -/
theorem baseline_is_windowed_mean :
    (∀ (history : List HistoryRecord) (name : String),
        scenario_baseline history name = baseline_spec history name) ∧
    scenario_baseline exHistory "s" = some (21 / 2) := by
  refine ⟨?_, by decide⟩
  intro history name
  unfold scenario_baseline baseline_spec moving_average
  by_cases h : (history.filter (validFor name)).map (fun h => h.p95_ms.getD 0) = []
  · simp [h]
  · rw [if_neg h, if_neg h]
    by_cases hlen :
      10 < ((history.filter (validFor name)).map (fun h => h.p95_ms.getD 0)).length
    · rw [if_pos hlen]
    · rw [if_neg hlen, Nat.sub_eq_zero_of_le (Nat.le_of_not_lt hlen), List.drop_zero]

/-- Claim C7: in every aggregate, success plus errors is the count, the
    error rate lies between 0 and 100, and it is recomputed from the counts. -/
theorem aggregate_count_error_invariants (samples : List Sample) :
    (aggregate_samples samples).success + (aggregate_samples samples).errors
        = (aggregate_samples samples).count ∧
    0 ≤ (aggregate_samples samples).err_rate ∧
    (aggregate_samples samples).err_rate ≤ 100 ∧
    (aggregate_samples samples).err_rate =
      (if 0 < (aggregate_samples samples).count
       then ((aggregate_samples samples).errors : ℚ) /
              ((aggregate_samples samples).count : ℚ) * 100
       else 0) := by
  by_cases hs : samples = []
  · subst hs; decide
  · have hpos : 0 < samples.length := List.length_pos.mpr hs
    have hcle : samples.countP (fun s => !s.success) ≤ samples.length :=
      List.countP_le_length _
    simp only [aggregate_samples, if_neg hs, List.length_map]
    refine ⟨Nat.sub_add_cancel hcle, ?_, ?_, ?_⟩
    · rw [if_pos hpos]
      positivity
    · rw [if_pos hpos]
      have h1 : ((samples.countP (fun s => !s.success) : ℚ)) / (samples.length : ℚ) ≤ 1 :=
        div_le_one_of_le₀ (by exact_mod_cast hcle) (by positivity)
      calc ((samples.countP (fun s => !s.success) : ℚ)) / (samples.length : ℚ) * 100
          ≤ 1 * 100 := by
            apply mul_le_mul_of_nonneg_right h1
            norm_num
        _ = 100 := one_mul 100
    · trivial

/-- Claim C8: the aggregated throughput is count over the elapsed sum in
    seconds when that sum is positive and 0 otherwise, and the empty sample
    list aggregates to the sentinel record. -/
theorem aggregate_throughput_formula (samples : List Sample) :
    (aggregate_samples samples).throughput =
      (if 0 < (samples.map (fun s => s.elapsed)).sum
       then (samples.length : ℚ) / ((samples.map (fun s => s.elapsed)).sum / 1000)
       else 0) ∧
    aggregate_samples [] = ⟨0, none, none, 0, 0, 0, 0⟩ := by
  refine ⟨?_, rfl⟩
  by_cases hs : samples = []
  · subst hs; decide
  · have h1000 : (0 : ℚ) < 1000 := by norm_num
    have hiff : 0 < (samples.map (fun s => s.elapsed)).sum / 1000 ↔
        0 < (samples.map (fun s => s.elapsed)).sum := by
      constructor
      · intro h
        have hm := mul_pos h h1000
        rwa [div_mul_cancel₀ _ (by norm_num : (1000 : ℚ) ≠ 0)] at hm
      · intro h
        exact div_pos h h1000
    simp only [aggregate_samples, if_neg hs, List.length_map, hiff]

/-- Claim C2: with a valid baseline b and current p95 c, the classifier
    computes delta = (c - b) / b * 100 and assigns the first matching band
    with strictly exclusive boundaries. -/
theorem classify_bands (b c : ℚ) (hb : 0 < b) :
    (classify (some b) (some c)).delta_pct = some ((c - b) / b * 100) ∧
    (20 < (c - b) / b * 100 →
      classify (some b) (some c) = ⟨some ((c - b) / b * 100), "red", "BLOCK (>20%)"⟩) ∧
    (10 < (c - b) / b * 100 → (c - b) / b * 100 ≤ 20 →
      classify (some b) (some c) = ⟨some ((c - b) / b * 100), "red", "RED (>10%)"⟩) ∧
    (5 < (c - b) / b * 100 → (c - b) / b * 100 ≤ 10 →
      classify (some b) (some c) = ⟨some ((c - b) / b * 100), "yellow", "YELLOW (>5%)"⟩) ∧
    ((c - b) / b * 100 ≤ 5 →
      classify (some b) (some c) = ⟨some ((c - b) / b * 100), "green", "OK"⟩) := by
  have hc : classify (some b) (some c) =
      (if (20 : ℚ) < (c - b) / b * 100 then
        ⟨some ((c - b) / b * 100), "red", "BLOCK (>20%)"⟩
       else if (10 : ℚ) < (c - b) / b * 100 then
        ⟨some ((c - b) / b * 100), "red", "RED (>10%)"⟩
       else if (5 : ℚ) < (c - b) / b * 100 then
        ⟨some ((c - b) / b * 100), "yellow", "YELLOW (>5%)"⟩
       else ⟨some ((c - b) / b * 100), "green", "OK"⟩) := by
    simp only [classify, if_pos hb, BLOCK_PCT, ALERT_PCT, WARN_PCT]
  rw [hc]
  refine ⟨?_, ?_, ?_, ?_, ?_⟩
  · split_ifs <;> rfl
  · intro h1
    rw [if_pos h1]
  · intro h1 h2
    rw [if_neg (not_lt.mpr h2), if_pos h1]
  · intro h1 h2
    rw [if_neg (not_lt.mpr (h2.trans (by norm_num))), if_neg (not_lt.mpr h2), if_pos h1]
  · intro h1
    rw [if_neg (not_lt.mpr (h1.trans (by norm_num))),
      if_neg (not_lt.mpr (h1.trans (by norm_num))), if_neg (not_lt.mpr h1)]

/-- Witness for classify_bands at the boundary examples of the spec. -/
theorem classify_bands_witness :
    (0 : ℚ) < 100 ∧
    classify (some 100) (some 105) = ⟨some 5, "green", "OK"⟩ ∧
    classify (some 100) (some 106) = ⟨some 6, "yellow", "YELLOW (>5%)"⟩ ∧
    classify (some 100) (some 121) = ⟨some 21, "red", "BLOCK (>20%)"⟩ := by
  refine ⟨by norm_num, ?_, ?_, ?_⟩
  · have h := (classify_bands 100 105 (by norm_num)).2.2.2.2 (by norm_num)
    have hd : ((105 : ℚ) - 100) / 100 * 100 = 5 := by norm_num
    rw [hd] at h
    exact h
  · have h := (classify_bands 100 106 (by norm_num)).2.2.2.1 (by norm_num) (by norm_num)
    have hd : ((106 : ℚ) - 100) / 100 * 100 = 6 := by norm_num
    rw [hd] at h
    exact h
  · have h := (classify_bands 100 121 (by norm_num)).2.1 (by norm_num)
    have hd : ((121 : ℚ) - 100) / 100 * 100 = 21 := by norm_num
    rw [hd] at h
    exact h

/-- Counterexample to claim C6 as stated: a record whose success and label
    fields are missing is not skipped; it is kept with defaults, so the
    aggregate differs from the aggregate with the record removed. -/
theorem malformed_skip_counterexample :
    read_jmeter_csv [⟨some "12", none, none, none, none, none⟩] =
      [⟨12, false, "unknown"⟩] ∧
    aggregate_samples (read_jmeter_csv [⟨some "12", none, none, none, none, none⟩]) ≠
      aggregate_samples (read_jmeter_csv []) := by decide

/-- Claim C6 as amended: a record whose elapsed value fails to parse is
    skipped individually, and the sample set aggregates identically to the
    same set with that record removed; the rest of the rows are unaffected. -/
theorem unparsable_elapsed_skipped (pre post : List Row) (r : Row)
    (h : parseRow r = none) :
    read_jmeter_csv (pre ++ r :: post) = read_jmeter_csv (pre ++ post) ∧
    aggregate_samples (read_jmeter_csv (pre ++ r :: post)) =
      aggregate_samples (read_jmeter_csv (pre ++ post)) := by
  have he : read_jmeter_csv (pre ++ r :: post) = read_jmeter_csv (pre ++ post) := by
    unfold read_jmeter_csv
    rw [List.filterMap_append, List.filterMap_append, List.filterMap_cons, h]
  exact ⟨he, congrArg _ he⟩

/-- Witness for unparsable_elapsed_skipped on a concrete sample set with one
    non-numeric elapsed value. -/
theorem unparsable_elapsed_skipped_witness :
    parseRow ⟨some "abc", none, none, none, none, none⟩ = none ∧
    aggregate_samples (read_jmeter_csv
        ([⟨some "7", none, some "true", none, some "s", none⟩] ++
          ⟨some "abc", none, none, none, none, none⟩ ::
            [⟨some "3", none, none, none, some "s", none⟩])) =
      aggregate_samples (read_jmeter_csv
        ([⟨some "7", none, some "true", none, some "s", none⟩] ++
          [⟨some "3", none, none, none, some "s", none⟩])) :=
  ⟨by decide, (unparsable_elapsed_skipped _ _ _ (by decide)).2⟩

/-- Claim C10: a row with missing or empty fields is kept with defaults,
    not skipped: effective elapsed none (both cells missing or empty) gives
    elapsed 0, a missing success cell gives success false, a missing label
    gives unknown, success is true exactly when the lowercased cell is the
    string true, and a row is dropped exactly when its present elapsed cell
    fails the float conversion. -/
theorem row_field_defaults (r : Row) :
    (effElapsed r = none → parseRow r = some ⟨0, rowSuccess r, rowLabel r⟩) ∧
    (effElapsed r = none ↔
      ((r.elapsed = none ∨ r.elapsed = some "") ∧
       (r.elapsedCap = none ∨ r.elapsedCap = some ""))) ∧
    (r.success = none → r.successCap = none → rowSuccess r = false) ∧
    (rowSuccess r = true ↔ lowerStr (rowSuccessStr r) = "true") ∧
    (r.label = none → r.labelCap = none → rowLabel r = "unknown") ∧
    (parseRow r = none ↔ ∃ s, effElapsed r = some s ∧ parseFloat s = none) := by
  obtain ⟨e, eC, su, suC, la, laC⟩ := r
  refine ⟨?_, ?_, ?_, ?_, ?_, ?_⟩
  · intro h
    unfold parseRow
    rw [h]
  · rcases e with _ | es
    · rcases eC with _ | ecs
      · simp [effElapsed, pyOrS]
      · by_cases h2 : ecs = "" <;> simp [effElapsed, pyOrS, h2]
    · rcases eC with _ | ecs
      · by_cases h1 : es = "" <;> simp [effElapsed, pyOrS, h1]
      · by_cases h1 : es = "" <;> by_cases h2 : ecs = "" <;>
          simp [effElapsed, pyOrS, h1, h2]
  · intro h1 h2
    subst h1
    subst h2
    rfl
  · simp [rowSuccess]
  · intro h1 h2
    subst h1
    subst h2
    rfl
  · unfold parseRow
    rcases hef : effElapsed ⟨e, eC, su, suC, la, laC⟩ with _ | s
    · simp
    · simp [Option.map_eq_none']

/-- Witness for row_field_defaults on the fully missing row. -/
theorem row_field_defaults_witness :
    effElapsed ⟨none, none, none, none, none, none⟩ = none ∧
    parseRow ⟨none, none, none, none, none, none⟩ =
      some ⟨0, rowSuccess ⟨none, none, none, none, none, none⟩,
            rowLabel ⟨none, none, none, none, none, none⟩⟩ ∧
    rowSuccess ⟨none, none, none, none, none, none⟩ = false ∧
    rowLabel ⟨none, none, none, none, none, none⟩ = "unknown" :=
  ⟨rfl, (row_field_defaults _).1 rfl, (row_field_defaults _).2.2.1 rfl rfl,
    (row_field_defaults _).2.2.2.2.1 rfl rfl⟩

/-- The ascending sort used by percentile is determined by the multiset of
    values: permuted inputs sort to the same list. -/
theorem insertionSort_eq_of_perm {l l' : List ℚ} (h : l.Perm l') :
    List.insertionSort (fun a b => a ≤ b) l = List.insertionSort (fun a b => a ≤ b) l' := by
  have hp : (List.insertionSort (fun a b => a ≤ b) l).Perm
      (List.insertionSort (fun a b => a ≤ b) l') :=
    ((List.perm_insertionSort _ l).trans h).trans (List.perm_insertionSort _ l').symm
  exact List.eq_of_perm_of_sorted hp
    (List.sorted_insertionSort _ l) (List.sorted_insertionSort _ l')

/-- In an ascending sorted list every element is at most the last one. -/
theorem sorted_le_last : ∀ (v : List ℚ), v.Sorted (fun a b => a ≤ b) →
    ∀ (hne : v ≠ []) (x : ℚ), x ∈ v → x ≤ v.getLast hne := by
  intro v
  induction v with
  | nil => intro _ hne; exact absurd rfl hne
  | cons a t ih =>
    intro hs hne x hx
    rcases t with _ | ⟨b, t2⟩
    · rcases List.mem_cons.mp hx with rfl | h0
      · exact le_refl x
      · exact absurd h0 (List.not_mem_nil x)
    · have hne2 : b :: t2 ≠ [] := List.cons_ne_nil b t2
      rcases List.mem_cons.mp hx with rfl | hx2
      · exact List.rel_of_sorted_cons hs _ (List.getLast_mem hne2)
      · exact ih hs.of_cons hne2 x hx2

/-- At percentile 0 the script returns the minimum of the values. -/
theorem percentile_at_zero (values : List ℚ) (hne : values ≠ []) :
    ∃ m, percentile values 0 = some m ∧ m ∈ values ∧ ∀ x ∈ values, m ≤ x := by
  have hperm : (List.insertionSort (fun a b => a ≤ b) values).Perm values :=
    List.perm_insertionSort _ values
  have hsorted : (List.insertionSort (fun a b => a ≤ b) values).Sorted (fun a b => a ≤ b) :=
    List.sorted_insertionSort _ values
  have hvne : List.insertionSort (fun a b => a ≤ b) values ≠ [] := by
    intro hh
    exact hne (List.Perm.eq_nil (hh ▸ hperm).symm)
  obtain ⟨m, t, hmt⟩ : ∃ m t, List.insertionSort (fun a b => a ≤ b) values = m :: t := by
    rcases hx : List.insertionSort (fun a b => a ≤ b) values with _ | ⟨m, t⟩
    · exact absurd hx hvne
    · exact ⟨m, t, rfl⟩
  have hres : percentile values 0 = some m := by
    simp only [percentile, if_neg hne]
    simp only [zero_div, mul_zero, Int.floor_zero, Int.ceil_zero, if_true, eq_self_iff_true,
      Int.toNat_zero, if_pos]
    rw [hmt]
    simp [List.getD_cons_zero]
  have hmem : m ∈ values := hperm.subset (by rw [hmt]; exact List.mem_cons_self m t)
  refine ⟨m, hres, hmem, ?_⟩
  intro x hx
  have hxv : x ∈ m :: t := by
    rw [← hmt]
    exact hperm.symm.subset hx
  rcases List.mem_cons.mp hxv with rfl | hx2
  · exact le_refl x
  · have hs2 : (m :: t).Sorted (fun a b => a ≤ b) := by rw [← hmt]; exact hsorted
    exact List.rel_of_sorted_cons hs2 x hx2

/-- At percentile 100 the script returns the maximum of the values. -/
theorem percentile_at_hundred (values : List ℚ) (hne : values ≠ []) :
    ∃ M, percentile values 100 = some M ∧ M ∈ values ∧ ∀ x ∈ values, x ≤ M := by
  have hperm : (List.insertionSort (fun a b => a ≤ b) values).Perm values :=
    List.perm_insertionSort _ values
  have hsorted : (List.insertionSort (fun a b => a ≤ b) values).Sorted (fun a b => a ≤ b) :=
    List.sorted_insertionSort _ values
  have hvne : List.insertionSort (fun a b => a ≤ b) values ≠ [] := by
    intro hh
    exact hne (List.Perm.eq_nil (hh ▸ hperm).symm)
  have hlen : (List.insertionSort (fun a b => a ≤ b) values).length = values.length :=
    hperm.length_eq
  have hlpos : 0 < values.length := List.length_pos.mpr hne
  refine ⟨(List.insertionSort (fun a b => a ≤ b) values).getLast hvne, ?_,
    hperm.subset (List.getLast_mem hvne), ?_⟩
  · have hk : ((values.length : ℚ) - 1) * ((100 : ℚ) / 100)
        = ((values.length - 1 : ℕ) : ℚ) := by
      rw [Nat.cast_sub hlpos]
      norm_num
    have hidx : values.length - 1 < (List.insertionSort (fun a b => a ≤ b) values).length := by
      rw [hlen]
      exact Nat.sub_lt hlpos one_pos
    simp only [percentile, if_neg hne, hk, Int.floor_natCast, Int.ceil_natCast,
      Int.toNat_natCast, if_pos]
    rw [List.getD_eq_getElem _ 0 hidx, List.getLast_eq_getElem]
    simp only [hlen]
  · intro x hx
    exact sorted_le_last _ hsorted hvne x (hperm.symm.subset hx)

/-- Claim C5: percentile is the linearly interpolated order statistic: it is
    the minimum at p = 0 and the maximum at p = 100, it is the NaN sentinel
    on empty input, and it interpolates between adjacent ranks, as on the
    four-element example of the spec. -/
theorem percentile_order_statistics (values : List ℚ) (p : ℚ) (hne : values ≠ []) :
    (∃ m, percentile values 0 = some m ∧ m ∈ values ∧ ∀ x ∈ values, m ≤ x) ∧
    (∃ M, percentile values 100 = some M ∧ M ∈ values ∧ ∀ x ∈ values, x ≤ M) ∧
    percentile [] p = none ∧
    percentile [10, 20, 30, 40] 50 = some 25 :=
  ⟨percentile_at_zero values hne, percentile_at_hundred values hne, rfl, by decide⟩

/-- Witness for percentile_order_statistics on a concrete unsorted list. -/
theorem percentile_order_statistics_witness :
    ([3, 1, 2] : List ℚ) ≠ [] ∧
    (∃ m, percentile [3, 1, 2] 0 = some m ∧ m ∈ ([3, 1, 2] : List ℚ) ∧
      ∀ x ∈ ([3, 1, 2] : List ℚ), m ≤ x) :=
  ⟨by decide, (percentile_order_statistics [3, 1, 2] 0 (by decide)).1⟩

/-- Claim C9: percentile is invariant under permutation of its input, for
    every target percentile. -/
theorem percentile_perm_invariant (l l' : List ℚ) (p : ℚ) (h : l.Perm l') :
    percentile l p = percentile l' p := by
  have hlen := h.length_eq
  have hsort := insertionSort_eq_of_perm h
  by_cases hl : l = []
  · subst hl
    have h2 : l' = [] := List.Perm.eq_nil h.symm
    rw [h2]
  · have hl' : l' ≠ [] := by
      intro hh
      exact hl (List.Perm.eq_nil (hh ▸ h))
    unfold percentile
    rw [if_neg hl, if_neg hl', hlen, hsort]

/-- Witness for percentile_perm_invariant on a transposed pair. -/
theorem percentile_perm_invariant_witness :
    ([1, 2] : List ℚ).Perm [2, 1] ∧ percentile [1, 2] 50 = percentile [2, 1] 50 :=
  ⟨by decide, percentile_perm_invariant [1, 2] [2, 1] 50 (by decide)⟩
